import Mathlib

set_option autoImplicit false

/-!
Shallow embedding of the chat relay server in src/chat_server.py.

The registry `self.clients` (a Python dict keyed by the connection socket)
is modelled as an association list from a connection identifier (`Nat`) to
the per-client record `{'username': ..., 'address': ...}`.  Socket sends
are modelled by an oracle `fails : Nat -> Bool` telling which connections
raise on `send`; a successful send to connection `k` is recorded as a
`SentMsg` carrying the arguments the code passes to `encode_message`
(the timestamp that `encode_message` adds from the wall clock is treated
separately, in the wire-codec section).  Wall-clock strings that end up in
message bodies (`/time`) are passed in as an explicit `now` argument.
-/

namespace Chat

/-- ASCII whitespace as used by Python `str.strip()` / `str.split()`
(space, tab, newline, carriage return, vertical tab, form feed). -/
def pyIsSpace (c : Char) : Bool :=
  c == ' ' || c == '\t' || c == '\n' || c == '\r' || c == '\x0b' || c == '\x0c'

/-- Python `str.strip()`: drop leading and trailing whitespace. -/
def pyStrip (s : String) : String :=
  ⟨((s.data.dropWhile pyIsSpace).reverse.dropWhile pyIsSpace).reverse⟩

/-- Helper for `pySplit`: split a character list on runs of whitespace,
accumulating the current word in reverse. -/
def splitWordsAux : List Char → List Char → List (List Char)
  | [], acc => if acc.isEmpty then [] else [acc.reverse]
  | c :: cs, acc =>
    if pyIsSpace c then
      if acc.isEmpty then splitWordsAux cs []
      else acc.reverse :: splitWordsAux cs []
    else splitWordsAux cs (c :: acc)

/-- Python `str.split()` with no argument: split on whitespace runs,
dropping empty fields. -/
def pySplit (s : String) : List String :=
  (splitWordsAux s.data []).map fun l => ⟨l⟩

/-- ASCII lowering of one character (the usernames and commands the server
compares are ASCII; Python `str.lower()` agrees on ASCII). -/
def asciiLower (c : Char) : Char :=
  if 'A' ≤ c && c ≤ 'Z' then Char.ofNat (c.toNat + 32) else c

/-- Python `str.lower()` restricted to ASCII. -/
def pyLower (s : String) : String :=
  ⟨s.data.map asciiLower⟩

/-- Python `message.startswith('/')`. -/
def startsWithSlash (s : String) : Bool :=
  match s.data with
  | [] => false
  | c :: _ => c == '/'

/-- Python `' '.join(parts)`. -/
def joinSpace : List String → String
  | [] => ""
  | [x] => x
  | x :: xs => x ++ " " ++ joinSpace xs

/-- Python `', '.join(...)`-style comma joining, as in a list repr. -/
def commaJoin : List String → String
  | [] => ""
  | [x] => x
  | x :: xs => x ++ ", " ++ commaJoin xs

/-- Python `f"{list_of_strings}"`: the repr of a list of strings, as used
for the online-users listing (quoting only; the usernames involved in the
claims contain no quotes or escapes). -/
def pyReprStrList (l : List String) : String :=
  "[" ++ commaJoin (l.map fun s => "'" ++ s ++ "'") ++ "]"

/-- The per-connection record the server stores in `self.clients`:
`{'username': name, 'address': addr}`. -/
structure ClientInfo where
  username : String
  address : String
deriving DecidableEq, Repr

/-- The registry `self.clients`, an insertion-ordered map from connection
identity to its record. -/
abbrev Clients := List (Nat × ClientInfo)

/-- `[client['username'] for client in self.clients.values()]` — also the
body of `get_online_users`. -/
def usernames (m : Clients) : List String :=
  m.map fun p => p.2.username

/-- Whether `conn in self.clients`. -/
def containsConn (conn : Nat) (m : Clients) : Bool :=
  m.any fun p => p.1 == conn

/-- Python `del self.clients[conn]`: `none` models the `KeyError` raised
when the key is absent. -/
def rawDel (conn : Nat) (m : Clients) : Option Clients :=
  if containsConn conn m then some (m.filter fun p => p.1 != conn) else none

/-- The guarded removal the server performs (lines 125-126 and 196-197):
`if conn in self.clients: del self.clients[conn]`. -/
def removeClient (conn : Nat) (m : Clients) : Clients :=
  if containsConn conn m then (rawDel conn m).getD m else m

/-- One successful socket send: the destination connection and the
`(sender, message, msg_type)` arguments passed to `encode_message`. -/
structure SentMsg where
  dst : Nat
  sender : String
  body : String
  kind : String
deriving DecidableEq, Repr

/-- The loop body of `broadcast` (lines 190-197): iterate over the snapshot
`list(self.clients.keys())`, skip `exclude`, and on a failed send delete
that client from the registry and continue. -/
def broadcastGo (message sender : String) (exclude : Option Nat) (msgType : String)
    (fails : Nat → Bool) : List Nat → Clients → List SentMsg → Clients × List SentMsg
  | [], m, acc => (m, acc)
  | k :: ks, m, acc =>
    if exclude == some k then broadcastGo message sender exclude msgType fails ks m acc
    else if fails k then
      broadcastGo message sender exclude msgType fails ks (removeClient k m) acc
    else
      broadcastGo message sender exclude msgType fails ks m
        (acc ++ [⟨k, sender, message, msgType⟩])

/-- `ChatServer.broadcast(message, sender, exclude=None, msg_type="message")`
(lines 185-197). -/
def broadcast (message sender : String) (exclude : Option Nat) (msgType : String)
    (fails : Nat → Bool) (m : Clients) : Clients × List SentMsg :=
  broadcastGo message sender exclude msgType fails (m.map fun p => p.1) m []

/-- The whisper target lookup (lines 159-164): first client, in insertion
order, whose username equals the target; `break` at the first hit. -/
def lookupByUsername (name : String) : Clients → Option Nat
  | [] => none
  | (k, info) :: rest =>
    if info.username == name then some k else lookupByUsername name rest

/-- One attempted `conn.send(...)` outside `broadcast`: these sends are not
wrapped in a `try`, so a failure raises.  Returns the messages actually
delivered and whether the send raised. -/
def sendTo (fails : Nat → Bool) (k : Nat) (sender body kind : String) :
    List SentMsg × Bool :=
  if fails k then ([], true) else ([⟨k, sender, body, kind⟩], false)

/-- The `/help` text literal (lines 140-147). -/
def helpText : String :=
  "\n            Available Commands:\n            /help - Show this help message\n            /users - List online users\n            /whisper <username> <message> - Send private message\n            /quit - Disconnect from server\n            /time - Show server time\n            "

/-- `ChatServer.handle_command(conn, username, command)` (lines 132-183).
`now` stands for `datetime.now().strftime("%Y-%m-%d %H:%M:%S")` in the
`/time` branch.  The returned Bool is true when an uncaught exception
propagates out of the method (an unguarded send failed, or `parts[0]`
raised on an empty token list); the registry is never mutated here. -/
def handleCommand (conn : Nat) (username command now : String)
    (fails : Nat → Bool) (m : Clients) : List SentMsg × Bool :=
  let parts := pySplit command
  match parts with
  | [] => ([], true)
  | p0 :: rest =>
    let cmd := pyLower p0
    if cmd == "/help" then
      sendTo fails conn "Server" helpText "system"
    else if cmd == "/users" then
      sendTo fails conn "Server" ("Online users: " ++ pyReprStrList (usernames m)) "system"
    else if cmd == "/whisper" && rest.length ≥ 2 then
      match rest with
      | target :: b1 :: brest =>
        let whisperMsg := joinSpace (b1 :: brest)
        match lookupByUsername target m with
        | some t =>
          if t != conn then
            let r1 := sendTo fails t ("[Whisper from " ++ username ++ "]") whisperMsg "whisper"
            if r1.2 then (r1.1, true)
            else
              let r2 := sendTo fails conn "Server" ("Whisper sent to " ++ target) "system"
              (r1.1 ++ r2.1, r2.2)
          else
            sendTo fails conn "Server"
              ("User '" ++ target ++ "' not found or is yourself") "error"
        | none =>
          sendTo fails conn "Server"
            ("User '" ++ target ++ "' not found or is yourself") "error"
      | _ => sendTo fails conn "Server" "Unknown command. Type /help for available commands." "error"
    else if cmd == "/time" then
      sendTo fails conn "Server" ("Server time: " ++ now) "system"
    else if cmd == "/quit" then
      sendTo fails conn "Server" "Goodbye!" "system"
    else
      sendTo fails conn "Server" "Unknown command. Type /help for available commands." "error"

/-- One outcome of `conn.recv(1024)` in the message loop: the decoded text
(`data ""` is the empty read of a closed peer), a `ConnectionResetError`,
or any other exception while reading. -/
inductive Recv where
  | data : String → Recv
  | reset : Recv
  | err : Recv
deriving DecidableEq, Repr

/-- One iteration of the message loop (lines 99-117): receive, break on an
empty read / reset / error, dispatch commands (an exception escaping
`handle_command` is caught by the `except` on line 115 and breaks the
loop), otherwise broadcast with `exclude=None`.  Returns the updated
registry, the messages sent, and whether the loop breaks. -/
def processRecv (conn : Nat) (username now : String) (fails : Nat → Bool)
    (r : Recv) (m : Clients) : Clients × List SentMsg × Bool :=
  match r with
  | .reset => (m, [], true)
  | .err => (m, [], true)
  | .data s =>
    if s == "" then (m, [], true)
    else
      let message := pyStrip s
      if startsWithSlash message then
        let rc := handleCommand conn username message now fails m
        (m, rc.1, rc.2)
      else
        let rb := broadcast message username none "message" fails m
        (rb.1, rb.2, false)

/-- The message loop of `handle_client` (lines 98-117), run over the given
sequence of receive outcomes; stops at the first break.  Receptions after
a break never happen.  (The `self.running` flag is modelled as staying
true: admin shutdown is outside the claims.) -/
def runLoop (conn : Nat) (username now : String) (fails : Nat → Bool) :
    List Recv → Clients → Clients × List SentMsg
  | [], m => (m, [])
  | r :: rest, m =>
    let st := processRecv conn username now fails r m
    if st.2.2 then (st.1, st.2.1)
    else
      let st2 := runLoop conn username now fails rest st.1
      (st2.1, st.2.1 ++ st2.2)

/-- The `finally` block of `handle_client` (lines 121-130): if a username
string was assigned and is non-empty (truthy), remove the connection if
present and broadcast the departure — note `sender="system"` and the
default `msg_type="message"`. -/
def clientCleanup (conn : Nat) (username : String) (fails : Nat → Bool)
    (m : Clients) : Clients × List SentMsg :=
  if username == "" then (m, [])
  else
    let m2 := removeClient conn m
    broadcast (username ++ " has left the chat.") "system" none "message" fails m2

/-- The uniqueness check of lines 78-79: the candidate exactly equals a
live username, or equals the reserved name server case-insensitively. -/
def usernameRejected (u : String) (m : Clients) : Bool :=
  (usernames m).contains u || pyLower u == "server"

/-- The handshake check-then-insert pair (lines 76-86) as one sequential
step, the shape `tryRegister` takes when no other handshake interleaves
between the two lock sections; the Bool is false on rejection, in which
case the registry is returned untouched. -/
def tryRegister (conn : Nat) (addr : String) (u : String) (m : Clients) :
    Clients × Bool :=
  if usernameRejected u m then (m, false)
  else (m ++ [(conn, ⟨u, addr⟩)], true)

/-- The first message sent on line 66. -/
def welcomeMsg (conn : Nat) : SentMsg :=
  ⟨conn, "Server", "Welcome to the chat server! Enter your username:", "system"⟩

/-- `ChatServer.handle_client(conn, addr)` (lines 59-130) over a sequence
of receive outcomes, the first of which is the username line.  Every path
ends in the `finally` block; a connection whose username variable is still
`None` (or empty, which is falsy) skips removal and departure broadcast. -/
def handleClient (conn : Nat) (addr : String) (now : String)
    (fails : Nat → Bool) (recvs : List Recv) (m : Clients) :
    Clients × List SentMsg :=
  if fails conn then (m, [])
  else
    match recvs with
    | [] => (m, [welcomeMsg conn])
    | .reset :: _ => (m, [welcomeMsg conn])
    | .err :: _ => (m, [welcomeMsg conn])
    | .data d :: rest =>
      if d == "" then (m, [welcomeMsg conn])
      else
        let u := pyStrip d
        if usernameRejected u m then
          let evs := [welcomeMsg conn,
            ⟨conn, "Server", "Username already taken. Disconnecting...", "error"⟩]
          let fin := clientCleanup conn u fails m
          (fin.1, evs ++ fin.2)
        else
          let m1 := m ++ [(conn, ⟨u, addr⟩)]
          let j := broadcast (u ++ " has joined the chat!") "system" (some conn) "message" fails m1
          let evW2 : List SentMsg := [⟨conn, "Server",
            "Welcome " ++ u ++ "! Type '/help' for commands. Currently online: "
              ++ pyReprStrList (usernames j.1), "welcome"⟩]
          let lp := runLoop conn u now fails rest j.1
          let fin := clientCleanup conn u fails lp.1
          (fin.1, [welcomeMsg conn] ++ j.2 ++ evW2 ++ lp.2 ++ fin.2)

/-! ### Interleaving model of the handshake's two lock sections

Lines 77-82 (the uniqueness check) and lines 85-86 (the insertion) are two
separate `with self.client_lock:` blocks.  Each block is atomic, but
between them another thread may run.  The model below gives each handshake
thread a program counter over the two blocks and lets a scheduler pick
which thread performs its next atomic block. -/

/-- Program counter of one handshake thread: before the check block,
between the check and the insert block, finished, or rejected. -/
inductive HsPc where
  | check
  | insert
  | done
  | rejected
deriving DecidableEq, Repr

/-- One in-flight handshake: its connection, address, candidate username
and program counter. -/
structure HsThread where
  conn : Nat
  addr : String
  uname : String
  pc : HsPc
deriving DecidableEq, Repr

/-- Run one thread's next atomic lock section against the registry:
the check block moves `check` to `insert` or `rejected`; the insert block
appends the entry and moves to `done`. -/
def hsStep (t : HsThread) (m : Clients) : HsThread × Clients :=
  match t.pc with
  | .check =>
    if usernameRejected t.uname m then ({ t with pc := .rejected }, m)
    else ({ t with pc := .insert }, m)
  | .insert => ({ t with pc := .done }, m ++ [(t.conn, ⟨t.uname, t.addr⟩)])
  | .done => (t, m)
  | .rejected => (t, m)

/-- Two handshake threads racing on the shared registry. -/
structure HsRace where
  a : HsThread
  b : HsThread
  clients : Clients
deriving DecidableEq, Repr

/-- Scheduler step: false runs thread a, true runs thread b. -/
def raceStep (s : HsRace) (choice : Bool) : HsRace :=
  if choice then
    let r := hsStep s.b s.clients
    { s with b := r.1, clients := r.2 }
  else
    let r := hsStep s.a s.clients
    { s with a := r.1, clients := r.2 }

/-- Run a schedule of interleaved lock sections. -/
def raceRun (s : HsRace) (sched : List Bool) : HsRace :=
  sched.foldl raceStep s

/-! ### Wire codec

`encode_message` (lines 206-216) builds a dict of the four Chat Event
fields and returns `json.dumps(...)` of it; the timestamp field is read
from the wall clock inside the call (`get_timestamp`, line 270), so it is
an explicit `now` argument here.  `json.dumps` with default options emits
the keys in insertion order with `", "` and `": "` separators and escapes
each string; the parser below mirrors what `json.loads` on the client
recovers for records of exactly this shape. -/

/-- Python `json.dumps` escaping of one character, for the plain ASCII
range the claims exercise; characters outside `0x20..0x7e` and the two
specials are mapped through `\u`-style escapes by Python and are covered
by the `plainJson` side condition below. -/
def jsonEscapeChar (c : Char) : List Char :=
  if c == '"' then ['\\', '"']
  else if c == '\\' then ['\\', '\\']
  else [c]

/-- Escape a string field for `json.dumps`. -/
def jsonEscape (s : String) : String :=
  ⟨s.data.flatMap jsonEscapeChar⟩

/-- A string needing no JSON escaping: printable ASCII without the quote
and backslash characters.  All four fields of every event the server
builds in the claims are of this shape. -/
def plainJson (s : String) : Bool :=
  s.data.all fun c => 0x20 ≤ c.toNat && c.toNat ≤ 0x7e && c != '"' && c != '\\'

/-- `ChatServer.encode_message(sender, message, msg_type)` (lines 206-216)
with the clock reading `now` made explicit: the `json.dumps` output of the
four-field record, as a string (the method utf-8-encodes it to bytes). -/
def encodeMessage (now sender message msgType : String) : String :=
  "\x7b\"timestamp\": \"" ++ jsonEscape now
    ++ "\", \"sender\": \"" ++ jsonEscape sender
    ++ "\", \"message\": \"" ++ jsonEscape message
    ++ "\", \"type\": \"" ++ jsonEscape msgType ++ "\"\x7d"

/-- The decoded Chat Event record. -/
structure WireEvent where
  timestamp : String
  sender : String
  message : String
  kind : String
deriving DecidableEq, Repr

/-- Drop an expected literal prefix, or fail. -/
def expectLit : List Char → List Char → Option (List Char)
  | [], rest => some rest
  | p :: ps, rest =>
    match rest with
    | [] => none
    | c :: cs => if p == c then expectLit ps cs else none

/-- Read an unescaped string field up to the closing quote. -/
def readField : List Char → Option (List Char × List Char)
  | [] => none
  | c :: cs =>
    if c == '"' then some ([], cs)
    else
      match readField cs with
      | some (f, rest) => some (c :: f, rest)
      | none => none

/-- Decode a server frame of the exact shape `encode_message` emits, as
`json.loads` on the client recovers it (for unescaped field contents),
working on the character list. -/
def decodeChars (l : List Char) : Option WireEvent := do
  let r1 ← expectLit "\x7b\"timestamp\": \"".data l
  let (ts, r2) ← readField r1
  let r3 ← expectLit ", \"sender\": \"".data r2
  let (sd, r4) ← readField r3
  let r5 ← expectLit ", \"message\": \"".data r4
  let (msg, r6) ← readField r5
  let r7 ← expectLit ", \"type\": \"".data r6
  let (ty, r8) ← readField r7
  match r8 with
  | ['\x7d'] => some ⟨⟨ts⟩, ⟨sd⟩, ⟨msg⟩, ⟨ty⟩⟩
  | _ => none

/-- Decode a server frame (string form). -/
def decodeMessage (s : String) : Option WireEvent :=
  decodeChars s.data

/-- The all-sends-succeed oracle. -/
def noFail : Nat → Bool := fun _ => false

/-! ### Helper lemmas -/

theorem removeClient_eq_filter (conn : Nat) (m : Clients) :
    removeClient conn m = m.filter fun p => p.1 != conn := by
  unfold removeClient rawDel
  by_cases h : containsConn conn m
  · simp [h]
  · simp only [h, if_false]
    symm
    apply List.filter_eq_self.mpr
    intro p hp
    simp only [bne_iff_ne, ne_eq]
    intro hpc
    apply h
    simp only [containsConn, List.any_eq_true]
    exact ⟨p, hp, by simp [hpc]⟩

theorem broadcastGo_snd (message sender : String) (exclude : Option Nat)
    (msgType : String) (fails : Nat → Bool) (ks : List Nat) (m : Clients)
    (acc : List SentMsg) :
    (broadcastGo message sender exclude msgType fails ks m acc).2
      = acc ++ (ks.filter fun k => !(exclude == some k) && !(fails k)).map
          (fun k => ⟨k, sender, message, msgType⟩) := by
  induction ks generalizing m acc with
  | nil => simp [broadcastGo]
  | cons k ks ih =>
    by_cases he : exclude == some k
    · simp [broadcastGo, he, ih]
    · by_cases hf : fails k
      · simp [broadcastGo, he, hf, ih]
      · simp [broadcastGo, he, hf, ih]

theorem broadcastGo_fst_noFail (message sender : String) (exclude : Option Nat)
    (msgType : String) (ks : List Nat) (m : Clients) (acc : List SentMsg) :
    (broadcastGo message sender exclude msgType noFail ks m acc).1 = m := by
  induction ks generalizing m acc with
  | nil => rfl
  | cons k ks ih =>
    by_cases he : exclude == some k
    · simp [broadcastGo, he, ih]
    · simp [broadcastGo, he, noFail, ih]

theorem broadcastGo_fst (message sender : String) (msgType : String)
    (fails : Nat → Bool) (ks : List Nat) (m : Clients) (acc : List SentMsg) :
    (broadcastGo message sender none msgType fails ks m acc).1
      = m.filter fun p => !(decide (p.1 ∈ ks) && fails p.1) := by
  induction ks generalizing m acc with
  | nil => simp [broadcastGo]
  | cons k ks ih =>
    have hyp : ((none : Option Nat) == some k) = false := rfl
    by_cases hf : fails k
    · simp only [broadcastGo, hyp, Bool.false_eq_true, if_false, hf, if_true]
      rw [ih, removeClient_eq_filter, List.filter_filter]
      apply List.filter_congr
      intro p _
      by_cases hp : p.1 = k
      · simp [hp, hf]
      · simp [hp, List.mem_cons]
    · simp only [broadcastGo, hyp, Bool.false_eq_true, if_false, hf, if_false]
      rw [ih]
      apply List.filter_congr
      intro p _
      by_cases hp : p.1 = k
      · simp [hp, hf]
      · simp [hp, List.mem_cons]

theorem broadcast_noFail (message sender : String) (msgType : String)
    (m : Clients) :
    broadcast message sender none msgType noFail m
      = (m, m.map fun p => ⟨p.1, sender, message, msgType⟩) := by
  unfold broadcast
  refine Prod.ext ?_ ?_
  · simpa using broadcastGo_fst_noFail message sender none msgType (m.map fun p => p.1) m []
  · rw [broadcastGo_snd]
    simp [noFail, List.map_map]

theorem broadcast_fst_filter (message sender : String) (msgType : String)
    (fails : Nat → Bool) (m : Clients) :
    (broadcast message sender none msgType fails m).1
      = m.filter fun p => !(fails p.1) := by
  unfold broadcast
  rw [broadcastGo_fst]
  apply List.filter_congr
  intro p hp
  have : p.1 ∈ m.map fun q => q.1 := List.mem_map.mpr ⟨p, hp, rfl⟩
  simp [this]

theorem broadcast_snd_filter (message sender : String) (msgType : String)
    (fails : Nat → Bool) (m : Clients) :
    (broadcast message sender none msgType fails m).2
      = ((m.map fun p => p.1).filter fun k => !(fails k)).map
          (fun k => ⟨k, sender, message, msgType⟩) := by
  unfold broadcast
  rw [broadcastGo_snd]
  simp

theorem nodup_filter_beq_length {l : List Nat} {k : Nat} (h : l.Nodup)
    (hm : k ∈ l) : (l.filter fun x => x == k).length = 1 := by
  induction l with
  | nil => cases hm
  | cons a l ih =>
    have hna : a ∉ l := (List.nodup_cons.mp h).1
    have hnd : l.Nodup := (List.nodup_cons.mp h).2
    by_cases hak : a = k
    · subst hak
      have hnil : List.filter (fun x => x == a) l = [] := by
        apply List.filter_eq_nil_iff.mpr
        intro x hx
        simp only [beq_iff_eq]
        intro hxa
        exact hna (hxa ▸ hx)
      simp [List.filter_cons, hnil]
    · have hm2 : k ∈ l := by
        rcases List.mem_cons.mp hm with h1 | h2
        · exact absurd h1.symm hak
        · exact h2
      have hb : (a == k) = false := by simp [hak]
      simp only [List.filter_cons, hb, Bool.false_eq_true, if_false]
      exact ih hnd hm2

theorem broadcast_fst_noFail (message sender : String) (exclude : Option Nat)
    (msgType : String) (m : Clients) :
    (broadcast message sender exclude msgType noFail m).1 = m := by
  unfold broadcast
  exact broadcastGo_fst_noFail message sender exclude msgType (m.map fun p => p.1) m []

theorem pyStrip_all_space {d : String} (h : d.data.all pyIsSpace = true) :
    pyStrip d = "" := by
  unfold pyStrip
  have h1 : d.data.dropWhile pyIsSpace = [] := by
    apply List.dropWhile_eq_nil_iff.mpr
    intro x hx
    exact List.all_eq_true.mp h x hx
  rw [h1]
  rfl

theorem usernameRejected_iff (u : String) (m : Clients) :
    usernameRejected u m = true ↔ (∃ p ∈ m, p.2.username = u) ∨ pyLower u = "server" := by
  simp only [usernameRejected, usernames, Bool.or_eq_true, beq_iff_eq,
    List.contains, List.elem_eq_mem, decide_eq_true_eq, List.mem_map]

/-! ### Claim theorems -/

/-- C8: `tryRegister` rejects a candidate username iff it exactly
(case-sensitively) equals the username of a live session or equals the
reserved name server case-insensitively, and on rejection the registry is
left unmutated. -/
theorem tryRegister_reject_iff (conn : Nat) (addr u : String) (m : Clients) :
    ((tryRegister conn addr u m).2 = false ↔
      (∃ p ∈ m, p.2.username = u) ∨ pyLower u = "server")
    ∧ ((tryRegister conn addr u m).2 = false → (tryRegister conn addr u m).1 = m) := by
  by_cases h : usernameRejected u m
  · refine ⟨⟨fun _ => (usernameRejected_iff u m).mp h, fun _ => ?_⟩, fun _ => ?_⟩
    · simp [tryRegister, h]
    · simp [tryRegister, h]
  · have hf : usernameRejected u m = false := by
      exact Bool.not_eq_true _ |>.mp h
    constructor
    · constructor
      · intro h2
        exfalso
        simp [tryRegister, hf] at h2
      · intro h2
        exact absurd ((usernameRejected_iff u m).mpr h2) (by simp [hf])
    · intro h2
      exfalso
      simp [tryRegister, hf] at h2

/-- C8 witness: with "alice" live, the candidates "alice" and "SERVER" are
rejected with the registry unchanged, while "Alice" (different case) is
not rejected. -/
theorem tryRegister_reject_witness :
    ((tryRegister 2 "a2" "alice" [(1, ⟨"alice", "a1"⟩)]).2 = false
      ∧ (tryRegister 2 "a2" "alice" [(1, ⟨"alice", "a1"⟩)]).1 = [(1, ⟨"alice", "a1"⟩)])
    ∧ (tryRegister 2 "a2" "SERVER" [(1, ⟨"alice", "a1"⟩)]).2 = false
    ∧ (tryRegister 2 "a2" "Alice" [(1, ⟨"alice", "a1"⟩)]).2 ≠ false := by
  refine ⟨⟨?_, ?_⟩, ?_, ?_⟩
  · exact (tryRegister_reject_iff 2 "a2" "alice" [(1, ⟨"alice", "a1"⟩)]).1.mpr
      (Or.inl ⟨(1, ⟨"alice", "a1"⟩), by decide, rfl⟩)
  · exact (tryRegister_reject_iff 2 "a2" "alice" [(1, ⟨"alice", "a1"⟩)]).2 (by decide)
  · exact (tryRegister_reject_iff 2 "a2" "SERVER" [(1, ⟨"alice", "a1"⟩)]).1.mpr
      (Or.inr (by decide))
  · decide

/-- C9: removal of an absent connection is a no-op on the registry (the
membership guard means the raising `del` is never attempted there), and
removal is idempotent. -/
theorem remove_absent_noop_idempotent (conn : Nat) (m : Clients) :
    (containsConn conn m = false → removeClient conn m = m ∧ rawDel conn m = none)
    ∧ removeClient conn (removeClient conn m) = removeClient conn m := by
  constructor
  · intro h
    constructor
    · rw [removeClient_eq_filter]
      apply List.filter_eq_self.mpr
      intro p hp
      simp only [bne_iff_ne, ne_eq]
      intro hpc
      have : containsConn conn m = true := by
        simp only [containsConn, List.any_eq_true]
        exact ⟨p, hp, by simp [hpc]⟩
      simp [this] at h
    · simp [rawDel, h]
  · rw [removeClient_eq_filter, removeClient_eq_filter, List.filter_filter]
    apply List.filter_congr
    intro p _
    simp

/-- C9 witness: removing connection 7 from a registry that holds only
connection 1 leaves it unchanged and the unguarded `del` would raise. -/
theorem remove_absent_noop_witness :
    removeClient 7 [(1, ⟨"a", "x"⟩)] = [(1, ⟨"a", "x"⟩)]
      ∧ rawDel 7 [(1, ⟨"a", "x"⟩)] = none :=
  (remove_absent_noop_idempotent 7 [(1, ⟨"a", "x"⟩)]).1 (by decide)

/-- C10: a handshake whose first reception is non-empty whitespace strips
it to the empty string and, when no live session has the empty username,
registers a session whose username is the empty string: no validation
beyond uniqueness and the reserved name. -/
theorem whitespace_username_registered (d : String) (conn : Nat)
    (addr now : String) (m : Clients) (hne : d ≠ "")
    (hsp : d.data.all pyIsSpace = true) (hfree : "" ∉ usernames m) :
    pyStrip d = ""
    ∧ (handleClient conn addr now noFail [Recv.data d] m).1
        = m ++ [(conn, ⟨"", addr⟩)] := by
  have hstrip : pyStrip d = "" := pyStrip_all_space hsp
  refine ⟨hstrip, ?_⟩
  have hdne : (d == "") = false := by simpa using hne
  have hrej : usernameRejected "" m = false := by
    unfold usernameRejected
    have hc : (usernames m).contains "" = false := by
      simp [List.contains, List.elem_eq_mem, hfree]
    rw [hc]
    rfl
  unfold handleClient
  simp only [noFail, Bool.false_eq_true, if_false, hdne, hstrip, hrej,
    runLoop, clientCleanup, broadcast_fst_noFail, beq_self_eq_true, if_true]

/-- C10 witness: a single space as first reception over an empty registry
registers the empty username. -/
theorem whitespace_username_witness :
    (handleClient 1 "a" "t" noFail [Recv.data " "] []).1 = [(1, ⟨"", "a"⟩)] :=
  (whitespace_username_registered " " 1 "a" "t" [] (by decide) (by decide)
    (by simp [usernames])).2

/-- C5: a well-formed whisper command addressed to an absent username or
to the sender itself yields exactly one error-kind event to the sender and
nothing else; addressed to another live user it yields exactly one
whisper-kind event to the target and one system-kind confirmation to the
sender, and nothing else. -/
theorem whisper_routing (conn : Nat) (u now command target b1 : String)
    (brest : List String) (m : Clients)
    (hp : pySplit command = "/whisper" :: target :: b1 :: brest) :
    ((lookupByUsername target m = none ∨ lookupByUsername target m = some conn) →
      handleCommand conn u command now noFail m
        = ([⟨conn, "Server", "User '" ++ target ++ "' not found or is yourself", "error"⟩],
            false))
    ∧ (∀ t, lookupByUsername target m = some t → t ≠ conn →
      handleCommand conn u command now noFail m
        = ([⟨t, "[Whisper from " ++ u ++ "]", joinSpace (b1 :: brest), "whisper"⟩,
            ⟨conn, "Server", "Whisper sent to " ++ target, "system"⟩], false)) := by
  have hlen : decide ((target :: b1 :: brest).length ≥ 2) = true := by
    simp [List.length_cons]
  have hcmd : pyLower "/whisper" = "/whisper" := by decide
  constructor
  · intro hl
    unfold handleCommand
    rw [hp]
    rcases hl with hl | hl
    · simp [hlen, hcmd, hl, sendTo, noFail]
    · simp [hlen, hcmd, hl, sendTo, noFail]
  · intro t ht htc
    unfold handleCommand
    rw [hp]
    simp [hlen, hcmd, ht, htc, bne_iff_ne, sendTo, noFail]

/-- C5 witness: in a registry with A (conn 1) and B (conn 2), A whispering
to B delivers the whisper to 2 and the confirmation to 1; A whispering to
the absent Z, or to A, yields only the error to 1. -/
theorem whisper_routing_witness :
    (handleCommand 1 "A" "/whisper B hi there" "t" noFail
        [(1, ⟨"A", "x"⟩), (2, ⟨"B", "y"⟩)]
      = ([⟨2, "[Whisper from A]", "hi there", "whisper"⟩,
          ⟨1, "Server", "Whisper sent to B", "system"⟩], false))
    ∧ (handleCommand 1 "A" "/whisper Z hi" "t" noFail
        [(1, ⟨"A", "x"⟩), (2, ⟨"B", "y"⟩)]
      = ([⟨1, "Server", "User 'Z' not found or is yourself", "error"⟩], false))
    ∧ (handleCommand 1 "A" "/whisper A hi" "t" noFail
        [(1, ⟨"A", "x"⟩), (2, ⟨"B", "y"⟩)]
      = ([⟨1, "Server", "User 'A' not found or is yourself", "error"⟩], false)) := by
  refine ⟨?_, ?_, ?_⟩
  · have h := (whisper_routing 1 "A" "t" "/whisper B hi there" "B" "hi" ["there"]
      [(1, ⟨"A", "x"⟩), (2, ⟨"B", "y"⟩)] (by decide)).2 2 (by decide) (by decide)
    exact h.trans (by decide)
  · exact (whisper_routing 1 "A" "t" "/whisper Z hi" "Z" "hi" []
      [(1, ⟨"A", "x"⟩), (2, ⟨"B", "y"⟩)] (by decide)).1 (Or.inl (by decide))
  · exact (whisper_routing 1 "A" "t" "/whisper A hi" "A" "hi" []
      [(1, ⟨"A", "x"⟩), (2, ⟨"B", "y"⟩)] (by decide)).1 (Or.inr (by decide))

/-- C1: the failing interleaving check-check-insert-insert of two
handshakes racing on the candidate "alice": both threads finish `done` and
the registry ends with two live sessions named "alice" — the two lock
sections do not form one critical section.  By contrast, the sequential
(single-critical-section) composition `tryRegister` rejects the second. -/
theorem handshake_race_duplicate_username :
    usernames (raceRun ⟨⟨1, "a1", "alice", HsPc.check⟩, ⟨2, "a2", "alice", HsPc.check⟩, []⟩
        [false, true, false, true]).clients = ["alice", "alice"]
    ∧ (raceRun ⟨⟨1, "a1", "alice", HsPc.check⟩, ⟨2, "a2", "alice", HsPc.check⟩, []⟩
        [false, true, false, true]).a.pc = HsPc.done
    ∧ (raceRun ⟨⟨1, "a1", "alice", HsPc.check⟩, ⟨2, "a2", "alice", HsPc.check⟩, []⟩
        [false, true, false, true]).b.pc = HsPc.done
    ∧ (tryRegister 2 "a2" "alice" (tryRegister 1 "a1" "alice" []).1).2 = false :=
  ⟨rfl, rfl, rfl, rfl⟩

/-- C2 counterexample: with sessions A (conn 1), B (conn 2), C (conn 3),
A sending the plain message "hi" delivers a copy to A itself (the code
passes `exclude=None` on line 111), contradicting "A receives none". -/
theorem plain_message_echoed_to_sender :
    processRecv 1 "A" "t" noFail (Recv.data "hi")
        [(1, ⟨"A", "x"⟩), (2, ⟨"B", "y"⟩), (3, ⟨"C", "z"⟩)]
      = ([(1, ⟨"A", "x"⟩), (2, ⟨"B", "y"⟩), (3, ⟨"C", "z"⟩)],
         [⟨1, "A", "hi", "message"⟩, ⟨2, "A", "hi", "message"⟩,
          ⟨3, "A", "hi", "message"⟩], false)
    ∧ (⟨1, "A", "hi", "message"⟩ : SentMsg)
        ∈ (processRecv 1 "A" "t" noFail (Recv.data "hi")
            [(1, ⟨"A", "x"⟩), (2, ⟨"B", "y"⟩), (3, ⟨"C", "z"⟩)]).2.1 :=
  ⟨rfl, by decide⟩

/-- C2 (amended): a plain message from an Active session is delivered
exactly once to every registered session — including the sender itself —
as a message-kind event carrying the sender's username. -/
theorem plain_message_broadcast_includes_sender (conn : Nat) (u now s : String)
    (m : Clients) (hne : s ≠ "")
    (hnc : startsWithSlash (pyStrip s) = false)
    (hnd : (m.map fun p => p.1).Nodup) :
    processRecv conn u now noFail (Recv.data s) m
        = (m, m.map fun p => (⟨p.1, u, pyStrip s, "message"⟩ : SentMsg), false)
    ∧ ∀ k, k ∈ m.map (fun p => p.1) →
        ((m.map fun p => (⟨p.1, u, pyStrip s, "message"⟩ : SentMsg)).filter
          fun e => e.dst == k).length = 1 := by
  constructor
  · have hsne : (s == "") = false := by simpa using hne
    unfold processRecv
    simp [hsne, hnc, broadcast_noFail]
  · intro k hk
    have h1 : ((m.map fun p => (⟨p.1, u, pyStrip s, "message"⟩ : SentMsg)).filter
          fun e => e.dst == k)
        = (m.filter fun q => q.1 == k).map
            fun p => (⟨p.1, u, pyStrip s, "message"⟩ : SentMsg) := by
      rw [List.filter_map]
      rfl
    have h2 : ((m.map fun p => p.1).filter fun x => x == k)
        = (m.filter fun q => q.1 == k).map fun p => p.1 := by
      rw [List.filter_map]
      rfl
    rw [h1, List.length_map]
    have h3 := nodup_filter_beq_length hnd hk
    rw [h2, List.length_map] at h3
    exact h3

/-- C2 witness: the amended broadcast shape at a concrete two-session
registry. -/
theorem plain_message_broadcast_witness :
    processRecv 1 "A" "t" noFail (Recv.data "hi")
        [(1, ⟨"A", "x"⟩), (2, ⟨"B", "y"⟩)]
      = ([(1, ⟨"A", "x"⟩), (2, ⟨"B", "y"⟩)],
         [⟨1, "A", "hi", "message"⟩, ⟨2, "A", "hi", "message"⟩], false) := by
  have h := (plain_message_broadcast_includes_sender 1 "A" "t" "hi"
    [(1, ⟨"A", "x"⟩), (2, ⟨"B", "y"⟩)] (by decide) (by decide) (by decide)).1
  exact h.trans (by decide)

/-- C3: a handshake rejected because "alice" is taken sends the error
event and no join broadcast, but — because `username` is assigned before
the uniqueness check — the `finally` block still broadcasts
"alice has left the chat." to every client, although this connection never
reached Active. -/
theorem rejected_handshake_departure_broadcast :
    handleClient 12 "a3" "t" noFail [Recv.data "alice"]
        [(10, ⟨"alice", "a1"⟩), (11, ⟨"bob", "a2"⟩)]
      = ([(10, ⟨"alice", "a1"⟩), (11, ⟨"bob", "a2"⟩)],
         [⟨12, "Server", "Welcome to the chat server! Enter your username:", "system"⟩,
          ⟨12, "Server", "Username already taken. Disconnecting...", "error"⟩,
          ⟨10, "system", "alice has left the chat.", "message"⟩,
          ⟨11, "system", "alice has left the chat.", "message"⟩]) := by
  decide

/-- C4 counterexample: A (conn 1) whispers to B (conn 2) whose socket
fails: the target is NOT evicted (registry unchanged), nothing is
delivered, and the uncaught send exception breaks the sender's own
receive loop — contradicting both eviction-and-continue for whispers and
"a whisper to an unreachable target does not terminate the sender's
session". -/
theorem whisper_failure_breaks_sender_loop :
    processRecv 1 "A" "t" (fun k => k == 2) (Recv.data "/whisper B hi")
        [(1, ⟨"A", "x"⟩), (2, ⟨"B", "y"⟩)]
      = ([(1, ⟨"A", "x"⟩), (2, ⟨"B", "y"⟩)], [], true) := by
  decide

/-- C4 (amended): during broadcast a failing peer is evicted and delivery
continues to all non-failing peers; but a failing whisper target is not
evicted — the unguarded send raises, no event is delivered, and the
exception breaks the sender's own receive loop. -/
theorem delivery_failure_semantics :
    (∀ (message sender msgType : String) (fails : Nat → Bool) (m : Clients),
      (broadcast message sender none msgType fails m).1
          = m.filter (fun p => !(fails p.1))
      ∧ (broadcast message sender none msgType fails m).2
          = ((m.map fun p => p.1).filter fun k => !(fails k)).map
              (fun k => (⟨k, sender, message, msgType⟩ : SentMsg)))
    ∧ (∀ (conn : Nat) (u now s target b1 : String) (brest : List String)
        (t : Nat) (fails : Nat → Bool) (m : Clients),
        s ≠ "" → startsWithSlash (pyStrip s) = true →
        pySplit (pyStrip s) = "/whisper" :: target :: b1 :: brest →
        lookupByUsername target m = some t → t ≠ conn → fails t = true →
        processRecv conn u now fails (Recv.data s) m = (m, [], true)) := by
  constructor
  · intro message sender msgType fails m
    exact ⟨broadcast_fst_filter message sender msgType fails m,
      broadcast_snd_filter message sender msgType fails m⟩
  · intro conn u now s target b1 brest t fails m hne hsl hp hl htc hf
    have hsne : (s == "") = false := by simpa using hne
    have hlen : decide ((target :: b1 :: brest).length ≥ 2) = true := by
      simp [List.length_cons]
    have hcmd : pyLower "/whisper" = "/whisper" := by decide
    unfold processRecv
    simp only [hsne, Bool.false_eq_true, if_false, hsl, if_true]
    unfold handleCommand
    rw [hp]
    simp [hlen, hcmd, hl, bne_iff_ne, htc, sendTo, hf]

/-- C4 witness: broadcast over a registry whose conn 2 fails evicts conn 2
and delivers to 1 and 3 only; a whisper whose target conn 7 fails leaves
the registry unchanged and breaks the sender's loop. -/
theorem delivery_failure_witness :
    ((broadcast "m" "A" none "message" (fun k => k == 2)
        [(1, ⟨"A", "x"⟩), (2, ⟨"B", "y"⟩), (3, ⟨"C", "z"⟩)]).1
      = [(1, ⟨"A", "x"⟩), (3, ⟨"C", "z"⟩)])
    ∧ processRecv 1 "A" "t" (fun k => k == 7) (Recv.data "/whisper B hi")
        [(1, ⟨"A", "x"⟩), (7, ⟨"B", "y"⟩)]
      = ([(1, ⟨"A", "x"⟩), (7, ⟨"B", "y"⟩)], [], true) := by
  constructor
  · exact ((delivery_failure_semantics.1 "m" "A" "message" (fun k => k == 2)
      [(1, ⟨"A", "x"⟩), (2, ⟨"B", "y"⟩), (3, ⟨"C", "z"⟩)]).1).trans (by decide)
  · exact delivery_failure_semantics.2 1 "A" "t" "/whisper B hi" "B" "hi" [] 7
      (fun k => k == 7) [(1, ⟨"A", "x"⟩), (7, ⟨"B", "y"⟩)]
      (by decide) (by decide) (by decide) (by decide) (by decide) (by decide)

/-- C6 counterexample: after "/quit" the farewell is sent but the loop
does not terminate — the next reception "hello" is still processed and
broadcast, and the session is still registered (registry unchanged, no
removal, no departure broadcast). -/
theorem quit_does_not_end_loop :
    runLoop 1 "A" "t" noFail [Recv.data "/quit", Recv.data "hello"]
        [(1, ⟨"A", "x"⟩), (2, ⟨"B", "y"⟩)]
      = ([(1, ⟨"A", "x"⟩), (2, ⟨"B", "y"⟩)],
         [⟨1, "Server", "Goodbye!", "system"⟩,
          ⟨1, "A", "hello", "message"⟩, ⟨2, "A", "hello", "message"⟩]) := by
  decide

/-- C6 (amended): "/quit" makes the session send one farewell event and
continue the loop with the registry untouched; an empty read breaks the
loop immediately; teardown — removal plus the departure broadcast to all
remaining clients — happens only in the cleanup that runs when the loop
ends (so the /quit transition to Closed relies on the client closing the
connection). -/
theorem quit_farewell_no_teardown :
    (∀ (conn : Nat) (u now : String) (m : Clients) (rest : List Recv),
      runLoop conn u now noFail (Recv.data "/quit" :: rest) m
        = ((runLoop conn u now noFail rest m).1,
           (⟨conn, "Server", "Goodbye!", "system"⟩ : SentMsg)
             :: (runLoop conn u now noFail rest m).2))
    ∧ (∀ (conn : Nat) (u now : String) (m : Clients) (rest : List Recv),
      runLoop conn u now noFail (Recv.data "" :: rest) m = (m, []))
    ∧ (∀ (conn : Nat) (u : String) (m : Clients), u ≠ "" →
      clientCleanup conn u noFail m
        = (m.filter fun p => p.1 != conn,
           (m.filter fun p => p.1 != conn).map fun p =>
             (⟨p.1, "system", u ++ " has left the chat.", "message"⟩ : SentMsg))) := by
  refine ⟨fun conn u now m rest => rfl, fun conn u now m rest => rfl, ?_⟩
  intro conn u m hu
  have hne : (u == "") = false := by simpa using hu
  unfold clientCleanup
  simp only [hne, Bool.false_eq_true, if_false]
  rw [removeClient_eq_filter]
  exact broadcast_noFail (u ++ " has left the chat.") "system" "message"
    (m.filter fun p => p.1 != conn)

/-- C6 witness: the farewell-then-continue shape and the cleanup shape at
concrete registries. -/
theorem quit_farewell_witness :
    runLoop 9 "A" "t" noFail [Recv.data "/quit"] []
        = ([], [⟨9, "Server", "Goodbye!", "system"⟩])
    ∧ clientCleanup 1 "A" noFail [(1, ⟨"A", "x"⟩), (2, ⟨"B", "y"⟩)]
        = ([(2, ⟨"B", "y"⟩)], [⟨2, "system", "A has left the chat.", "message"⟩]) := by
  constructor
  · exact (quit_farewell_no_teardown.1 9 "A" "t" [] []).trans (by decide)
  · exact (quit_farewell_no_teardown.2.2 1 "A"
      [(1, ⟨"A", "x"⟩), (2, ⟨"B", "y"⟩)] (by decide)).trans (by decide)

theorem strData_append (a b : String) : (a ++ b).data = a.data ++ b.data := rfl

theorem jsonEscapeChar_plain {c : Char} (h1 : (c == '"') = false)
    (h2 : (c == '\\') = false) : jsonEscapeChar c = [c] := by
  unfold jsonEscapeChar
  simp [h1, h2]

theorem plainJson_char {c : Char} {cs : List Char}
    (h : plainJson ⟨c :: cs⟩ = true) :
    (c == '"') = false ∧ (c == '\\') = false ∧ plainJson ⟨cs⟩ = true := by
  simp only [plainJson, List.all_cons, Bool.and_eq_true] at h
  obtain ⟨⟨⟨_, hq⟩, hb⟩, hrest⟩ := h
  refine ⟨?_, ?_, ?_⟩
  · simpa using hq
  · simpa using hb
  · simpa [plainJson] using hrest

theorem jsonEscape_data_plain {l : List Char} (h : plainJson ⟨l⟩ = true) :
    l.flatMap jsonEscapeChar = l := by
  induction l with
  | nil => rfl
  | cons c cs ih =>
    obtain ⟨h1, h2, h3⟩ := plainJson_char h
    simp only [List.flatMap_cons, jsonEscapeChar_plain h1 h2, ih h3,
      List.singleton_append]

theorem jsonEscape_plain {s : String} (h : plainJson s = true) :
    jsonEscape s = s := by
  obtain ⟨l⟩ := s
  unfold jsonEscape
  exact congrArg String.mk (jsonEscape_data_plain h)

theorem plain_no_quote {s : String} (h : plainJson s = true) :
    ∀ c ∈ s.data, (c == '"') = false := by
  intro c hc
  have := List.all_eq_true.mp h c hc
  simp only [Bool.and_eq_true] at this
  simpa using this.1.2

theorem expectLit_append (p r : List Char) : expectLit p (p ++ r) = some r := by
  induction p with
  | nil => rfl
  | cons c cs ih =>
    simp [expectLit, ih]

theorem readField_no_quote (l rest : List Char)
    (h : ∀ c ∈ l, (c == '"') = false) :
    readField (l ++ '"' :: rest) = some (l, rest) := by
  induction l with
  | nil => rfl
  | cons c cs ih =>
    have hc := h c (List.mem_cons_self c cs)
    have ih2 := ih fun x hx => h x (List.mem_cons_of_mem c hx)
    simp only [List.cons_append, readField, hc, Bool.false_eq_true, if_false]
    rw [show cs.append ('"' :: rest) = cs ++ '"' :: rest from rfl, ih2]

/-- C7 counterexample: two `encode_message` calls with identical sender,
body and kind but different clock readings produce different bytes — the
timestamp field comes from `datetime.now()` inside the call, so the
transformation is not a pure function of (sender, body, kind) alone. -/
theorem encode_clock_dependent :
    encodeMessage "12:00:00" "A" "hi" "message"
      ≠ encodeMessage "12:00:01" "A" "hi" "message" := by
  decide

theorem encodeMessage_data (now sender message msgType : String) :
    (encodeMessage now sender message msgType).data
      = ("\x7b\"timestamp\": \"" : String).data
        ++ ((jsonEscape now).data ++ (("\", \"sender\": \"" : String).data
        ++ ((jsonEscape sender).data ++ (("\", \"message\": \"" : String).data
        ++ ((jsonEscape message).data ++ (("\", \"type\": \"" : String).data
        ++ ((jsonEscape msgType).data ++ ("\"\x7d" : String).data))))))) := by
  simp only [encodeMessage, strData_append, List.append_assoc]

/-- C7 (amended): `encode_message` is a pure function of the clock reading
together with (sender, body, kind): for plain-ASCII fields the emitted
bytes are a structured record with exactly the four Chat Event fields,
recovered intact by decoding. -/
theorem encode_roundtrip_four_fields (now sender message msgType : String)
    (h1 : plainJson now = true) (h2 : plainJson sender = true)
    (h3 : plainJson message = true) (h4 : plainJson msgType = true) :
    decodeMessage (encodeMessage now sender message msgType)
      = some ⟨now, sender, message, msgType⟩ := by
  unfold decodeMessage
  rw [encodeMessage_data, jsonEscape_plain h1, jsonEscape_plain h2,
    jsonEscape_plain h3, jsonEscape_plain h4]
  unfold decodeChars
  rw [expectLit_append]
  simp only [Option.bind_eq_bind, Option.some_bind]
  rw [List.cons_append, readField_no_quote _ _ (plain_no_quote h1)]
  simp only [Option.bind_eq_bind, Option.some_bind]
  rw [expectLit_append]
  simp only [Option.bind_eq_bind, Option.some_bind]
  rw [List.cons_append, readField_no_quote _ _ (plain_no_quote h2)]
  simp only [Option.bind_eq_bind, Option.some_bind]
  rw [expectLit_append]
  simp only [Option.bind_eq_bind, Option.some_bind]
  rw [List.cons_append, readField_no_quote _ _ (plain_no_quote h3)]
  simp only [Option.bind_eq_bind, Option.some_bind]
  rw [expectLit_append]
  simp only [Option.bind_eq_bind, Option.some_bind]
  rw [readField_no_quote _ _ (plain_no_quote h4)]
  simp only [Option.bind_eq_bind, Option.some_bind]

/-- C7 witness: the roundtrip at a concrete event. -/
theorem encode_roundtrip_witness :
    decodeMessage (encodeMessage "12:00:00" "Server" "Goodbye!" "system")
      = some ⟨"12:00:00", "Server", "Goodbye!", "system"⟩ :=
  encode_roundtrip_four_fields "12:00:00" "Server" "Goodbye!" "system"
    (by decide) (by decide) (by decide) (by decide)

end Chat
